import Mathlib

set_option autoImplicit false

/-!
Shallow embedding of the spotify-dl downloader core (src/download.rs,
src/history.rs, src/main.rs) and proofs about its specified behaviour.

External effects (filesystem existence checks, the stream provider, the
encoder, tag writing, persistence) are modelled as explicit inputs to the
embedded functions: each fallible collaborator call is an `Except`-valued
field of a "world" record, and the embedded control flow mirrors the Rust
control flow over those results.
-/

namespace SpotifyDl

/-- A track artist; the downloader reads only the `name` field
(`artist.name.clone()` in `get_file_name` / `legacy_file_name`). -/
structure Artist where
  name : String
  deriving Repr, DecidableEq

/-- The fields of `TrackMetadata` read by the download pipeline:
`track_name`, the ordered artist list, and `duration` in milliseconds
(a signed integer in the source, so possibly non-positive; `Int` here). -/
structure TrackMetadata where
  track_name : String
  artists : List Artist
  duration : Int
  deriving Repr

/-- Rust `char::is_control`: Unicode general category Cc,
i.e. U+0000..U+001F and U+007F..U+009F. -/
def charIsControl (c : Char) : Bool :=
  c.toNat < 0x20 || (0x7f ≤ c.toNat && c.toNat ≤ 0x9f)

/-- Rust `char::is_ascii`: the code point is at most U+007F. -/
def charIsAscii (c : Char) : Bool :=
  c.toNat ≤ 0x7f

/-- The `invalid_chars` array of `Downloader::clean_file_name`. -/
def invalidChars : List Char :=
  ['<', '>', ':', '\'', '"', '/', '\\', '|', '?', '*', '.']

/-- Source `Downloader::clean_file_name`. The source iterates over the characters of
`file_name` and pushes each character that is not in `invalid_chars`, is ASCII
or allowed to be non-ASCII, and is not a control character. `allows_non_ascii`
is the compile-time platform configuration `!cfg!(windows)`, threaded here as
an explicit input. -/
def clean_file_name (allows_non_ascii : Bool) (file_name : String) : String :=
  file_name.data.foldl
    (fun clean c =>
      if !invalidChars.contains c && (charIsAscii c || allows_non_ascii) && !charIsControl c then
        clean.push c
      else clean)
    ""

/-- Source `Downloader::get_file_name`: more than three artists are truncated to the
first three plus ", and others - "; otherwise all artists are joined. -/
def get_file_name (allows_non_ascii : Bool) (metadata : TrackMetadata) : String :=
  if metadata.artists.length > 3 then
    clean_file_name allows_non_ascii
      (String.intercalate ", " ((metadata.artists.take 3).map Artist.name)
        ++ ", and others - " ++ metadata.track_name)
  else
    clean_file_name allows_non_ascii
      (String.intercalate ", " (metadata.artists.map Artist.name)
        ++ " - " ++ metadata.track_name)

/-- Source `Downloader::legacy_file_name`: only for more than three artists, using
", ... - " where `get_file_name` uses ", and others - ". -/
def legacy_file_name (allows_non_ascii : Bool) (metadata : TrackMetadata) : Option String :=
  if metadata.artists.length > 3 then
    some (clean_file_name allows_non_ascii
      (String.intercalate ", " ((metadata.artists.take 3).map Artist.name)
        ++ ", ... - " ++ metadata.track_name))
  else
    none

/-- The spec's description of the characters sanitization keeps: not one of
`< > : ' " / \ | ? * .`, not a control character, and — when the platform
configuration is ASCII-only — ASCII. -/
def specKeepsChar (allows_non_ascii : Bool) (c : Char) : Bool :=
  !invalidChars.contains c && !charIsControl c && (allows_non_ascii || charIsAscii c)

/-- Source `StreamEvent` (src/stream.rs is not under src/; the variants and their
payloads are exactly those matched in `Downloader::buffer_track` and listed in
the spec's data model). Sample payloads are `i32` vectors in the source,
`List Int` here. -/
inductive StreamEvent where
  | write (bytes : Nat) (total : Nat) (content : List Int)
  | finished
  | error (cause : String)
  | retry (attempt : Nat) (max_attempts : Nat)
  deriving Repr, DecidableEq

/-- One result of `timeout(timeout_duration, rx.recv())` inside
`buffer_track`: either the next event arrived in time, or the inactivity
timeout elapsed first. The end of the list models the channel closing
(`rx.recv()` returning `None`). -/
inductive RecvStep where
  | event (e : StreamEvent)
  | timedOut
  deriving Repr, DecidableEq

/-- The `Write` and `Retry` events: the arms of the receive loop that keep
looping without ending the track. -/
def RecvStep.nonTerminal : RecvStep → Bool
  | RecvStep.event (StreamEvent.write _ _ _) => true
  | RecvStep.event (StreamEvent.retry _ _) => true
  | _ => false

/-- The sample vector of `encoder::Samples` that `buffer_track` fills; the
source builds it as `Samples { samples, ..Default::default() }` and only the
sample vector is read afterwards. -/
structure Samples where
  samples : List Int
  deriving Repr, DecidableEq

/-- The inactivity timeout of `buffer_track`, from
`Duration::from_secs(30)`. -/
def buffer_track_timeout_secs : Nat := 30

/-- The receive loop of `Downloader::buffer_track` with `samples` the
accumulator: `Write` appends its payload, `Finished` or a closed channel
breaks out with the buffer, an elapsed timeout returns `none`, a stream
`Error` aborts with a hard error, and `Retry` only updates the progress
message and keeps waiting. -/
def buffer_track_loop (samples : List Int) : List RecvStep → Except String (Option (List Int))
  | [] => Except.ok (some samples)
  | RecvStep.timedOut :: _ => Except.ok none
  | RecvStep.event (StreamEvent.write _ _ content) :: rest =>
      buffer_track_loop (samples ++ content) rest
  | RecvStep.event StreamEvent.finished :: _ => Except.ok (some samples)
  | RecvStep.event (StreamEvent.error cause) :: _ =>
      Except.error ("Streaming error: " ++ cause)
  | RecvStep.event (StreamEvent.retry _ _) :: rest => buffer_track_loop samples rest

/-- Source `Downloader::buffer_track` over the sequence of receive results. -/
def buffer_track (rx : List RecvStep) : Except String (Option Samples) :=
  (buffer_track_loop [] rx).map (Option.map Samples.mk)

/-- Source `encoder::Format` (the encoder module is not under src/; its two variants
appear in `encoder::tags::store_tags`). -/
inductive Format where
  | mp3
  | flac
  deriving Repr, DecidableEq

/-- Modelled from the spec: `Format::extension` lives in the encoder module,
which is not under src/; the spec's output contract is one file per track at
`<destination>/<derived-name>.<format-extension>`. -/
def Format.extension : Format → String
  | Format.mp3 => "mp3"
  | Format.flac => "flac"

/-- Source `DownloadOptions`, with the destination directory as a path string. -/
structure DownloadOptions where
  destination : String
  parallel : Nat
  format : Format
  force : Bool

/-- Source `options.destination.join(stem)` followed by `set_extension(ext)`: the
derived stems contain no `.` (sanitization strips it), so setting the
extension appends `.` and the extension. -/
def joinWithExtension (destination stem ext : String) : String :=
  destination ++ "/" ++ stem ++ "." ++ ext

/-- The result of each effectful collaborator call made by one
`download_track` run, listed in source order. -/
structure TrackWorld where
  /-- Source `track.metadata(&self.session)` -/
  metadata : Except String TrackMetadata
  /-- Source `Path::exists` on the given path string -/
  fileExists : String → Bool
  /-- whether `target_path.to_str()` yields a usable string -/
  pathResolvable : Bool
  /-- Source `stream.stream(track)`: the opened event channel as its receive results -/
  streamOpen : Except String (List RecvStep)
  /-- Source `encoder.encode(samples)` -/
  encodeResult : Except String Unit
  /-- Source `stream.write_to_file(&path)` -/
  writeResult : Except String Unit
  /-- Source `metadata.tags()` -/
  tagsResult : Except String Unit
  /-- Source `encoder::tags::store_tags(path, &tags, options.format)` -/
  storeTagsResult : Except String Unit

/-- The terminal state of a `download_track` run that returns `Ok(())`,
together with the pacing delay in milliseconds for a completed track. -/
inductive TrackOutcome where
  | skippedMetadata
  | skippedExists
  | failedStream
  | skippedTimeout
  | failedBuffer
  | completed (delayMs : Nat)
  deriving Repr, DecidableEq

/-- The legacy-path existence check of `download_track`
(`if let Some(legacy) = self.legacy_file_name(&metadata)` followed by
`legacy_path.exists()`). -/
def legacy_exists (allows_non_ascii : Bool) (w : TrackWorld) (options : DownloadOptions)
    (metadata : TrackMetadata) : Bool :=
  match legacy_file_name allows_non_ascii metadata with
  | some legacy =>
      w.fileExists (joinWithExtension options.destination legacy options.format.extension)
  | none => false

/-- Source `Downloader::download_track`: one per-track pipeline run. The `Except`
mirrors the Rust `Result`: `ok` outcomes are the per-track terminal states
that do not abort the batch, `error` is a hard error propagated to
`download_tracks`. `allows_non_ascii` is the platform configuration used by
the naming functions. -/
def download_track (allows_non_ascii : Bool) (w : TrackWorld) (options : DownloadOptions) :
    Except String TrackOutcome :=
  match w.metadata with
  | Except.error _ => Except.ok TrackOutcome.skippedMetadata
  | Except.ok metadata =>
    let file_stem := get_file_name allows_non_ascii metadata
    let target_path := joinWithExtension options.destination file_stem options.format.extension
    if !options.force && w.fileExists target_path then
      Except.ok TrackOutcome.skippedExists
    else if !options.force && legacy_exists allows_non_ascii w options metadata then
      Except.ok TrackOutcome.skippedExists
    else if !w.pathResolvable then
      Except.error "Could not set the output path"
    else
      match w.streamOpen with
      | Except.error _ => Except.ok TrackOutcome.failedStream
      | Except.ok rx =>
        match buffer_track rx with
        | Except.ok (some _) =>
          (match w.encodeResult with
          | Except.error e => Except.error e
          | Except.ok _ =>
            match w.writeResult with
            | Except.error e => Except.error e
            | Except.ok _ =>
              match w.tagsResult with
              | Except.error e => Except.error e
              | Except.ok _ =>
                match w.storeTagsResult with
                | Except.error e => Except.error e
                | Except.ok _ =>
                  if options.parallel == 1 then
                    Except.ok (TrackOutcome.completed ((max metadata.duration 0).toNat / 5))
                  else
                    Except.ok (TrackOutcome.completed 0))
        | Except.ok none => Except.ok TrackOutcome.skippedTimeout
        | Except.error _ => Except.ok TrackOutcome.failedBuffer

/-- The first error among the encode, file-write, tag-derive and tag-write
steps, in the order the pipeline runs them (`encoder.encode`,
`stream.write_to_file`, `metadata.tags`, `store_tags`). -/
def stage_error (w : TrackWorld) : Option String :=
  match w.encodeResult with
  | Except.error e => some e
  | Except.ok _ =>
    match w.writeResult with
    | Except.error e => some e
    | Except.ok _ =>
      match w.tagsResult with
      | Except.error e => some e
      | Except.ok _ =>
        match w.storeTagsResult with
        | Except.error e => some e
        | Except.ok _ => none

/-- Source `Downloader::download_tracks`: the orchestrator runs `download_track`
once per track and `try_collect`s the results, so the first hard error is
propagated out of the batch. Each track's collaborator results are its own
`TrackWorld`. -/
def download_tracks (allows_non_ascii : Bool) (worlds : List TrackWorld)
    (options : DownloadOptions) : Except String (List TrackOutcome) :=
  match worlds with
  | [] => Except.ok []
  | w :: ws =>
    match download_track allows_non_ascii w options with
    | Except.error e => Except.error e
    | Except.ok outcome =>
      match download_tracks allows_non_ascii ws options with
      | Except.error e => Except.error e
      | Except.ok outcomes => Except.ok (outcome :: outcomes)

/-- A concrete world whose pipeline reaches the encode step and fails
there. -/
def encodeFailWorld : TrackWorld :=
  ⟨Except.ok ⟨"Song", [⟨"Artist"⟩], 3000⟩,
   fun _ => false, true,
   Except.ok [RecvStep.event StreamEvent.finished],
   Except.error "encode failed",
   Except.ok (), Except.ok (), Except.ok ()⟩

/-- A concrete world whose pipeline succeeds end to end, for a 3000 ms
track. -/
def fullSuccessWorld : TrackWorld :=
  ⟨Except.ok ⟨"Song", [⟨"Artist"⟩], 3000⟩,
   fun _ => false, true,
   Except.ok [RecvStep.event StreamEvent.finished],
   Except.ok (), Except.ok (), Except.ok (), Except.ok ()⟩

/-- Source `librespot::core::SpotifyUri`, abstractly: the history code only calls
`uri.to_uri()`, which may fail, so a URI is modelled by its rendered URI
string when one exists. -/
structure SpotifyUri where
  rendered : Option String
  deriving Repr, DecidableEq

/-- Source `history::to_uri_string`: `uri.to_uri().ok()`. -/
def to_uri_string (uri : SpotifyUri) : Option String :=
  uri.rendered

/-- Strict lexicographic comparison of character lists, the order `Ord for
String` gives Rust's `BTreeSet<String>` (UTF-8 byte order coincides with
code-point order), written structurally so it evaluates. -/
def charsLtb : List Char → List Char → Bool
  | [], [] => false
  | [], _ :: _ => true
  | _ :: _, [] => false
  | c :: cs, d :: ds =>
    if c.toNat < d.toNat then true
    else if d.toNat < c.toNat then false
    else charsLtb cs ds

/-- Rust `String` ordering, on the characters. -/
def stringLt (s t : String) : Bool :=
  charsLtb s.data t.data

/-- Source `BTreeSet<String>::insert` on the sorted duplicate-free member list: a
three-way comparison places the new member, keeps an equal member, or
descends past a smaller one. -/
def setInsert (x : String) : List String → List String
  | [] => [x]
  | y :: ys =>
    if stringLt x y then x :: y :: ys
    else if x = y then y :: ys
    else y :: setInsert x ys

/-- Source `BTreeSet<String>::contains` as membership in the member list. -/
def setContains (x : String) : List String → Bool
  | [] => false
  | y :: ys => x == y || setContains x ys

/-- The `playlists` map of `StoredHistory`
(`HashMap<String, BTreeSet<String>>`) as an association list of playlist id
and member list; the source never relies on hash order. -/
structure StoredHistory where
  playlists : List (String × List String)
  deriving Repr, DecidableEq

/-- The `entry` update of `record_download`: an occupied entry gets the track
inserted into its set, a vacant entry is created holding the singleton
set. -/
def historyInsert (playlist_id track_id : String) :
    List (String × List String) → List (String × List String)
  | [] => [(playlist_id, [track_id])]
  | (k, s) :: rest =>
    if playlist_id = k then (k, setInsert track_id s) :: rest
    else (k, s) :: historyInsert playlist_id track_id rest

/-- Source `HashMap::get` on the association list. -/
def historyGet (playlist_id : String) : List (String × List String) → Option (List String)
  | [] => none
  | (k, s) :: rest => if playlist_id = k then some s else historyGet playlist_id rest

/-- Source `PlaylistHistory` together with the contents the persisted file decodes
to, so that persistence effects are observable. -/
structure PlaylistHistory where
  data : StoredHistory
  file : StoredHistory
  deriving Repr, DecidableEq

/-- Source `PlaylistHistory::record_download`: when both URIs render, insert the
track id under the playlist id and persist; when either fails to render,
leave everything unchanged and still return `Ok(())`. `persistOk` is whether
`PlaylistHistory::persist` (directory creation, serialization, `fs::write`)
succeeds; on its failure the in-memory map has already been updated but the
file has not. -/
def record_download (persistOk : Bool) (h : PlaylistHistory) (playlist track : SpotifyUri) :
    PlaylistHistory × Except String Unit :=
  match to_uri_string playlist, to_uri_string track with
  | some playlist_id, some track_id =>
    let data' : StoredHistory := ⟨historyInsert playlist_id track_id h.data.playlists⟩
    if persistOk then
      (⟨data', data'⟩, Except.ok ())
    else
      (⟨data', h.file⟩, Except.error "persist failed")
  | _, _ => (h, Except.ok ())

/-- Source `PlaylistHistory::has_downloaded`: false when either URI fails to render,
otherwise membership of the track id in the playlist's set. -/
def has_downloaded (h : PlaylistHistory) (playlist track : SpotifyUri) : Bool :=
  match to_uri_string playlist, to_uri_string track with
  | some playlist_id, some track_id =>
    match historyGet playlist_id h.data.playlists with
    | some tracks => setContains track_id tracks
    | none => false
  | _, _ => false

/-- Source `LastRunCache` (src/last_run_cache.rs): the `url` list. -/
structure LastRunCache where
  url : List String
  deriving Repr, DecidableEq

/-- The CLI fields read by `use_last_run_cache_if_applicable`. -/
structure CliOpt where
  tracks : List String
  reset : Bool
  deriving Repr, DecidableEq

/-- Rust `char::is_whitespace`: the Unicode White_Space property. -/
def charIsWhitespace (c : Char) : Bool :=
  (0x9 ≤ c.toNat && c.toNat ≤ 0xd) || c.toNat == 0x20 || c.toNat == 0x85 || c.toNat == 0xa0 ||
  c.toNat == 0x1680 || (0x2000 ≤ c.toNat && c.toNat ≤ 0x200a) ||
  c.toNat == 0x2028 || c.toNat == 0x2029 || c.toNat == 0x202f ||
  c.toNat == 0x205f || c.toNat == 0x3000

/-- Rust `data.trim().is_empty()`: true exactly when every character of the
contents is whitespace. -/
def trimIsEmpty (data : String) : Bool :=
  data.data.all charIsWhitespace

/-- The result of `fs::read_to_string(last_run_cache_path)`. -/
inductive ReadResult where
  | notFound
  | ioFailure (msg : String)
  | ok (data : String)
  deriving Repr, DecidableEq

/-- Source `use_last_run_cache_if_applicable` (src/main.rs). `deserialize` stands for
the external `serde_json::from_str::<LastRunCache>`. The result pairs the
updated `opt.tracks` with whether the cache file was erased (the
`fs::remove_file` in the corruption arm). -/
def use_last_run_cache_if_applicable (deserialize : String → Option LastRunCache)
    (readCache : ReadResult) (opt : CliOpt) : Except String (List String × Bool) :=
  if opt.tracks.isEmpty && !opt.reset then
    match readCache with
    | ReadResult.ok data =>
      if !trimIsEmpty data then
        match deserialize data with
        | some cache =>
          if !cache.url.isEmpty then Except.ok (opt.tracks ++ cache.url, false)
          else Except.ok (opt.tracks, false)
        | none => Except.ok (opt.tracks, true)
      else Except.ok (opt.tracks, false)
    | ReadResult.notFound => Except.ok (opt.tracks, false)
    | ReadResult.ioFailure msg => Except.error msg
  else Except.ok (opt.tracks, false)

theorem clean_keep_eq_specKeepsChar (a : Bool) (c : Char) :
    (!invalidChars.contains c && (charIsAscii c || a) && !charIsControl c) = specKeepsChar a c := by
  unfold specKeepsChar
  cases invalidChars.contains c <;> cases charIsAscii c <;> cases a <;> cases charIsControl c <;> rfl

theorem clean_file_name_foldl (a : Bool) (l : List Char) (acc : String) :
    l.foldl
      (fun clean c =>
        if !invalidChars.contains c && (charIsAscii c || a) && !charIsControl c then
          clean.push c
        else clean)
      acc
      = ⟨acc.data ++ l.filter (specKeepsChar a)⟩ := by
  induction l generalizing acc with
  | nil => simp
  | cons c cs ih =>
    rw [List.foldl_cons, List.filter_cons, clean_keep_eq_specKeepsChar]
    cases h : specKeepsChar a c with
    | false =>
      rw [if_neg (by simp), if_neg (by simp)]
      exact ih acc
    | true =>
      rw [if_pos rfl, if_pos rfl, ih]
      simp [String.push]

theorem clean_file_name_eq_filter (a : Bool) (s : String) :
    clean_file_name a s = ⟨s.data.filter (specKeepsChar a)⟩ := by
  unfold clean_file_name
  simpa using clean_file_name_foldl a s.data ""

/-- C5: sanitization keeps, in order, exactly the characters that are not in
`< > : ' " / \ | ? * .`, are not control characters, and are ASCII whenever the
platform configuration is ASCII-only; and it is idempotent. -/
theorem clean_file_name_removes_exactly_and_idempotent (a : Bool) (s : String) :
    clean_file_name a s = ⟨s.data.filter (specKeepsChar a)⟩
    ∧ clean_file_name a (clean_file_name a s) = clean_file_name a s := by
  refine ⟨clean_file_name_eq_filter a s, ?_⟩
  rw [clean_file_name_eq_filter, clean_file_name_eq_filter]
  simp [List.filter_filter]

/-- C4: with at most three artists the derived name is the sanitization of all
artist names joined by ", " followed by " - " and the title and no legacy
variant exists; with more than three artists the derived name uses the first
three artists followed by ", and others - " and the title, and exactly one
legacy variant exists, differing only in using ", ... - " in its place. -/
theorem file_name_derivation (a : Bool) (md : TrackMetadata) :
    (md.artists.length ≤ 3 →
      get_file_name a md
        = clean_file_name a
            (String.intercalate ", " (md.artists.map Artist.name) ++ " - " ++ md.track_name)
      ∧ legacy_file_name a md = none)
    ∧ (md.artists.length > 3 →
      get_file_name a md
        = clean_file_name a
            (String.intercalate ", " ((md.artists.take 3).map Artist.name)
              ++ ", and others - " ++ md.track_name)
      ∧ legacy_file_name a md
        = some (clean_file_name a
            (String.intercalate ", " ((md.artists.take 3).map Artist.name)
              ++ ", ... - " ++ md.track_name))) := by
  constructor
  · intro h
    have hn : ¬ md.artists.length > 3 := by omega
    unfold get_file_name legacy_file_name
    rw [if_neg hn, if_neg hn]
    exact ⟨rfl, rfl⟩
  · intro h
    unfold get_file_name legacy_file_name
    rw [if_pos h, if_pos h]
    exact ⟨rfl, rfl⟩

theorem file_name_derivation_witness :
    (get_file_name true ⟨"T", [⟨"A"⟩, ⟨"B"⟩], 0⟩
        = clean_file_name true
            (String.intercalate ", " (([⟨"A"⟩, ⟨"B"⟩] : List Artist).map Artist.name) ++ " - " ++ "T")
      ∧ legacy_file_name true ⟨"T", [⟨"A"⟩, ⟨"B"⟩], 0⟩ = none)
    ∧ (get_file_name true ⟨"T", [⟨"A"⟩, ⟨"B"⟩, ⟨"C"⟩, ⟨"D"⟩], 0⟩
        = clean_file_name true
            (String.intercalate ", " ((([⟨"A"⟩, ⟨"B"⟩, ⟨"C"⟩, ⟨"D"⟩] : List Artist).take 3).map Artist.name)
              ++ ", and others - " ++ "T")
      ∧ legacy_file_name true ⟨"T", [⟨"A"⟩, ⟨"B"⟩, ⟨"C"⟩, ⟨"D"⟩], 0⟩
        = some (clean_file_name true
            (String.intercalate ", " ((([⟨"A"⟩, ⟨"B"⟩, ⟨"C"⟩, ⟨"D"⟩] : List Artist).take 3).map Artist.name)
              ++ ", ... - " ++ "T"))) :=
  ⟨(file_name_derivation true ⟨"T", [⟨"A"⟩, ⟨"B"⟩], 0⟩).1 (by decide),
   (file_name_derivation true ⟨"T", [⟨"A"⟩, ⟨"B"⟩, ⟨"C"⟩, ⟨"D"⟩], 0⟩).2 (by decide)⟩

theorem legacy_exists_false (a : Bool) (w : TrackWorld) (options : DownloadOptions)
    (md : TrackMetadata) (hex : ∀ p, w.fileExists p = false) :
    legacy_exists a w options md = false := by
  rw [legacy_exists]
  cases legacy_file_name a md with
  | none => rfl
  | some legacy => exact hex _

theorem buffer_track_loop_writes (writes : List (Nat × Nat × List Int)) (acc : List Int)
    (rest : List RecvStep) :
    buffer_track_loop acc
        (writes.map (fun wr => RecvStep.event (StreamEvent.write wr.1 wr.2.1 wr.2.2)) ++ rest)
      = buffer_track_loop (acc ++ (writes.map (fun wr => wr.2.2)).flatten) rest := by
  induction writes generalizing acc with
  | nil => simp
  | cons wr ws ih => simp [buffer_track_loop, ih, List.append_assoc]

/-- C6: a sequence of `Write` events terminated by `Finished` buffers the
in-order concatenation of the sample chunks, and a channel that closes with no
`Finished`/`Error` observed yields exactly the same completed buffer. -/
theorem buffer_track_concatenates_writes (writes : List (Nat × Nat × List Int)) :
    buffer_track
        (writes.map (fun wr => RecvStep.event (StreamEvent.write wr.1 wr.2.1 wr.2.2))
          ++ [RecvStep.event StreamEvent.finished])
      = Except.ok (some ⟨(writes.map (fun wr => wr.2.2)).flatten⟩)
    ∧ buffer_track (writes.map (fun wr => RecvStep.event (StreamEvent.write wr.1 wr.2.1 wr.2.2)))
      = Except.ok (some ⟨(writes.map (fun wr => wr.2.2)).flatten⟩) := by
  constructor
  · rw [buffer_track, buffer_track_loop_writes]
    rfl
  · rw [buffer_track]
    have h := buffer_track_loop_writes writes [] []
    rw [List.append_nil] at h
    rw [h]
    rfl

theorem buffer_track_loop_timeout (pre : List RecvStep) (acc : List Int)
    (rest : List RecvStep) (hpre : ∀ s ∈ pre, s.nonTerminal = true) :
    buffer_track_loop acc (pre ++ RecvStep.timedOut :: rest) = Except.ok none := by
  induction pre generalizing acc with
  | nil => simp [buffer_track_loop]
  | cons s ss ih =>
    have hs : s.nonTerminal = true := hpre s (List.mem_cons_self s ss)
    have hss : ∀ x ∈ ss, RecvStep.nonTerminal x = true :=
      fun x hx => hpre x (List.mem_cons_of_mem s hx)
    match s, hs with
    | RecvStep.event (StreamEvent.write b t c), _ =>
      rw [List.cons_append, buffer_track_loop]
      exact ih (acc ++ c) hss
    | RecvStep.event (StreamEvent.retry a m), _ =>
      rw [List.cons_append, buffer_track_loop]
      exact ih acc hss

/-- C3: when a receive attempt hits the fixed 30-second inactivity timeout
after only `Write`/`Retry` events, `buffer_track` yields the timed-out outcome
(`none`, no buffer) rather than an error, `download_track` reports the skip
and returns success, and the batch continues with the remaining tracks. -/
theorem stream_timeout_skips_track (a : Bool) (w : TrackWorld) (options : DownloadOptions)
    (pre rest : List RecvStep) (md : TrackMetadata)
    (hmd : w.metadata = Except.ok md)
    (hex : ∀ p, w.fileExists p = false)
    (hpath : w.pathResolvable = true)
    (hpre : ∀ s ∈ pre, s.nonTerminal = true)
    (hrx : w.streamOpen = Except.ok (pre ++ RecvStep.timedOut :: rest)) :
    buffer_track (pre ++ RecvStep.timedOut :: rest) = Except.ok none
    ∧ download_track a w options = Except.ok TrackOutcome.skippedTimeout
    ∧ (∀ ws, download_tracks a (w :: ws) options
        = (download_tracks a ws options).map (fun outs => TrackOutcome.skippedTimeout :: outs))
    ∧ buffer_track_timeout_secs = 30 := by
  have hbuf : buffer_track (pre ++ RecvStep.timedOut :: rest) = Except.ok none := by
    rw [buffer_track, buffer_track_loop_timeout pre [] rest hpre]
    rfl
  have hdl : download_track a w options = Except.ok TrackOutcome.skippedTimeout := by
    rw [download_track, hmd]
    simp [hex, legacy_exists_false a w options md hex, hpath, hrx, hbuf]
  refine ⟨hbuf, hdl, fun ws => ?_, rfl⟩
  rw [download_tracks, hdl]
  cases h : download_tracks a ws options <;> simp [Except.map]

theorem stream_timeout_skips_track_witness :
    buffer_track [RecvStep.timedOut] = Except.ok none
    ∧ download_track true
        ⟨Except.ok ⟨"Song", [⟨"Artist"⟩], 3000⟩, fun _ => false, true,
         Except.ok [RecvStep.timedOut], Except.ok (), Except.ok (), Except.ok (), Except.ok ()⟩
        ⟨"music", 1, Format.mp3, false⟩
      = Except.ok TrackOutcome.skippedTimeout
    ∧ (∀ ws, download_tracks true
        (⟨Except.ok ⟨"Song", [⟨"Artist"⟩], 3000⟩, fun _ => false, true,
          Except.ok [RecvStep.timedOut], Except.ok (), Except.ok (), Except.ok (), Except.ok ()⟩ :: ws)
        ⟨"music", 1, Format.mp3, false⟩
        = (download_tracks true ws ⟨"music", 1, Format.mp3, false⟩).map
            (fun outs => TrackOutcome.skippedTimeout :: outs))
    ∧ buffer_track_timeout_secs = 30 := by
  have h := stream_timeout_skips_track true
    ⟨Except.ok ⟨"Song", [⟨"Artist"⟩], 3000⟩, fun _ => false, true,
     Except.ok [RecvStep.timedOut], Except.ok (), Except.ok (), Except.ok (), Except.ok ()⟩
    ⟨"music", 1, Format.mp3, false⟩ [] [] ⟨"Song", [⟨"Artist"⟩], 3000⟩
    rfl (fun _ => rfl) rfl (by intro s hs; cases hs) rfl
  simpa using h

/-- C1 counterexample: a batch of a single track whose pipeline reaches the
encode step and fails there makes `download_tracks` itself return that error:
the error is not caught at the orchestrator level, contradicting the claim
that `download_tracks` still returns success. -/
theorem encode_error_aborts_batch_counterexample :
    download_tracks true [encodeFailWorld] ⟨"music", 1, Format.mp3, false⟩
      = Except.error "encode failed" := rfl

/-- C1 amended: an error from the encode, file-write, tag-derive or tag-write
step is a hard error: `download_track` returns it and `download_tracks`
propagates it, aborting the batch, while metadata, stream-open, stream-error
and timeout failures are contained per track (they yield `ok` outcomes). -/
theorem encode_write_tag_error_aborts_batch (a : Bool) (w : TrackWorld)
    (options : DownloadOptions) (md : TrackMetadata) (rx : List RecvStep)
    (smp : Samples) (e : String)
    (hmd : w.metadata = Except.ok md)
    (hex : ∀ p, w.fileExists p = false)
    (hpath : w.pathResolvable = true)
    (hrx : w.streamOpen = Except.ok rx)
    (hbuf : buffer_track rx = Except.ok (some smp))
    (hstage : stage_error w = some e) :
    download_track a w options = Except.error e
    ∧ ∀ ws, download_tracks a (w :: ws) options = Except.error e := by
  have hdl : download_track a w options = Except.error e := by
    rw [download_track, hmd]
    simp only [hex, Bool.and_false, legacy_exists_false a w options md hex, hpath, hrx, hbuf]
    rw [stage_error] at hstage
    cases henc : w.encodeResult with
    | error e1 =>
      rw [henc] at hstage
      simp at hstage
      simp [hstage]
    | ok u =>
      rw [henc] at hstage
      cases hwr : w.writeResult with
      | error e2 =>
        rw [hwr] at hstage
        simp at hstage
        simp [hstage]
      | ok u2 =>
        rw [hwr] at hstage
        cases htag : w.tagsResult with
        | error e3 =>
          rw [htag] at hstage
          simp at hstage
          simp [hstage]
        | ok u3 =>
          rw [htag] at hstage
          cases hst : w.storeTagsResult with
          | error e4 =>
            rw [hst] at hstage
            simp at hstage
            simp [hstage]
          | ok u4 =>
            rw [hst] at hstage
            simp at hstage
  refine ⟨hdl, fun ws => ?_⟩
  rw [download_tracks, hdl]

theorem encode_write_tag_error_aborts_batch_witness :
    download_track true encodeFailWorld ⟨"music", 1, Format.mp3, false⟩
      = Except.error "encode failed"
    ∧ ∀ ws, download_tracks true (encodeFailWorld :: ws) ⟨"music", 1, Format.mp3, false⟩
      = Except.error "encode failed" :=
  encode_write_tag_error_aborts_batch true encodeFailWorld ⟨"music", 1, Format.mp3, false⟩
    ⟨"Song", [⟨"Artist"⟩], 3000⟩ [RecvStep.event StreamEvent.finished] ⟨[]⟩ "encode failed"
    rfl (fun _ => rfl) rfl rfl rfl rfl

/-- C2: with `force = false`, an existing file at the derived current path or
(for more than three artists) at the derived legacy path makes the pipeline
skip with success, independently of the stream (it is never opened); with
`force = true` both existence checks are bypassed: the result does not depend
on which files exist, so the download proceeds over any existing file. -/
theorem force_and_skip_detection (a : Bool) (w : TrackWorld) (options : DownloadOptions)
    (md : TrackMetadata)
    (hmd : w.metadata = Except.ok md) :
    (options.force = false →
      (w.fileExists (joinWithExtension options.destination (get_file_name a md)
          options.format.extension) = true
        ∨ (∃ legacy, legacy_file_name a md = some legacy
            ∧ w.fileExists (joinWithExtension options.destination legacy
                options.format.extension) = true)) →
      ∀ rx, download_track a { w with streamOpen := rx } options
        = Except.ok TrackOutcome.skippedExists)
    ∧ (options.force = true → ∀ f g : String → Bool,
        download_track a { w with fileExists := f } options
          = download_track a { w with fileExists := g } options) := by
  constructor
  · intro hforce hex rx
    rw [download_track]
    simp only [hmd, hforce]
    cases htgt : w.fileExists (joinWithExtension options.destination (get_file_name a md)
        options.format.extension) with
    | true => simp [htgt]
    | false =>
      rcases hex with hex | ⟨legacy, hleg, hex⟩
      · rw [htgt] at hex
        exact absurd hex (by simp)
      · simp [htgt, legacy_exists, hleg, hex]
  · intro hforce f g
    rw [download_track, download_track]
    simp [hmd, hforce]

theorem force_and_skip_detection_witness :
    download_track true
        ⟨Except.ok ⟨"Song", [⟨"Artist"⟩], 3000⟩, fun _ => true, true,
         Except.ok [RecvStep.event StreamEvent.finished],
         Except.ok (), Except.ok (), Except.ok (), Except.ok ()⟩
        ⟨"music", 1, Format.mp3, false⟩
      = Except.ok TrackOutcome.skippedExists
    ∧ download_track true { fullSuccessWorld with fileExists := fun _ => true }
        ⟨"music", 1, Format.mp3, true⟩
      = download_track true { fullSuccessWorld with fileExists := fun _ => false }
        ⟨"music", 1, Format.mp3, true⟩ := by
  constructor
  · have h := ((force_and_skip_detection true
      ⟨Except.ok ⟨"Song", [⟨"Artist"⟩], 3000⟩, fun _ => true, true,
       Except.ok [RecvStep.event StreamEvent.finished],
       Except.ok (), Except.ok (), Except.ok (), Except.ok ()⟩
      ⟨"music", 1, Format.mp3, false⟩ ⟨"Song", [⟨"Artist"⟩], 3000⟩ rfl).1
      rfl (Or.inl rfl) (Except.ok [RecvStep.event StreamEvent.finished]))
    simpa using h
  · exact (force_and_skip_detection true fullSuccessWorld
      ⟨"music", 1, Format.mp3, true⟩ ⟨"Song", [⟨"Artist"⟩], 3000⟩ rfl).2 rfl
      (fun _ => true) (fun _ => false)

/-- C7: for a pipeline run that succeeds end to end, the pacing delay before
the orchestrator proceeds is `max(duration_ms, 0) / 5` milliseconds when the
concurrency width is 1 (so 3000 ms gives 600 ms and a non-positive duration
gives zero) and zero when the width is greater than 1. -/
theorem pacing_delay (a : Bool) (w : TrackWorld) (options : DownloadOptions)
    (md : TrackMetadata) (rx : List RecvStep) (smp : Samples)
    (hmd : w.metadata = Except.ok md)
    (hex : ∀ p, w.fileExists p = false)
    (hpath : w.pathResolvable = true)
    (hrx : w.streamOpen = Except.ok rx)
    (hbuf : buffer_track rx = Except.ok (some smp))
    (henc : w.encodeResult = Except.ok ())
    (hwr : w.writeResult = Except.ok ())
    (htag : w.tagsResult = Except.ok ())
    (hst : w.storeTagsResult = Except.ok ()) :
    download_track a w options
      = Except.ok (TrackOutcome.completed
          (if options.parallel = 1 then (max md.duration 0).toNat / 5 else 0))
    ∧ (md.duration ≤ 0 → (max md.duration 0).toNat / 5 = 0)
    ∧ (md.duration = 3000 → (max md.duration 0).toNat / 5 = 600) := by
  refine ⟨?_, ?_, ?_⟩
  · rw [download_track, hmd]
    simp only [hex, Bool.and_false, legacy_exists_false a w options md hex, hpath, hrx, hbuf,
      henc, hwr, htag, hst]
    cases hp : options.parallel == 1 with
    | true =>
      have : options.parallel = 1 := by simpa using hp
      simp [hp, this]
    | false =>
      have : ¬ options.parallel = 1 := by simpa using hp
      simp [hp, this]
  · intro hd
    have : max md.duration 0 = 0 := by omega
    simp [this]
  · intro hd
    rw [hd]
    rfl

theorem pacing_delay_witness :
    download_track true fullSuccessWorld ⟨"music", 1, Format.mp3, false⟩
      = Except.ok (TrackOutcome.completed 600)
    ∧ download_track true fullSuccessWorld ⟨"music", 4, Format.mp3, false⟩
      = Except.ok (TrackOutcome.completed 0) := by
  constructor
  · have h := (pacing_delay true fullSuccessWorld ⟨"music", 1, Format.mp3, false⟩
      ⟨"Song", [⟨"Artist"⟩], 3000⟩ [RecvStep.event StreamEvent.finished] ⟨[]⟩
      rfl (fun _ => rfl) rfl rfl rfl rfl rfl rfl rfl).1
    simpa using h
  · have h := (pacing_delay true fullSuccessWorld ⟨"music", 4, Format.mp3, false⟩
      ⟨"Song", [⟨"Artist"⟩], 3000⟩ [RecvStep.event StreamEvent.finished] ⟨[]⟩
      rfl (fun _ => rfl) rfl rfl rfl rfl rfl rfl rfl).1
    simpa using h

theorem stringLt_irrefl (x : String) : stringLt x x = false := by
  rw [stringLt]
  induction x.data with
  | nil => rfl
  | cons c cs ih => simp [charsLtb, ih]

theorem setContains_setInsert (x t : String) (l : List String) :
    setContains t (setInsert x l) = (t == x || setContains t l) := by
  induction l with
  | nil => simp [setInsert, setContains]
  | cons y ys ih =>
    simp only [setInsert]
    by_cases h1 : stringLt x y = true
    · rw [if_pos h1]
      simp only [setContains]
    · rw [if_neg h1]
      by_cases h2 : x = y
      · subst h2
        rw [if_pos rfl]
        simp only [setContains]
        cases ht : t == x <;> simp [ht]
      · rw [if_neg h2]
        simp only [setContains, ih]
        cases t == x <;> cases t == y <;> simp

theorem setInsert_idem (x : String) (l : List String) :
    setInsert x (setInsert x l) = setInsert x l := by
  induction l with
  | nil => simp [setInsert, stringLt_irrefl]
  | cons y ys ih =>
    simp only [setInsert]
    by_cases h1 : stringLt x y = true
    · rw [if_pos h1]
      simp [setInsert, stringLt_irrefl]
    · rw [if_neg h1]
      by_cases h2 : x = y
      · rw [if_pos h2]
        simp only [setInsert]
        rw [if_neg h1, if_pos h2]
      · rw [if_neg h2]
        simp only [setInsert]
        rw [if_neg h1, if_neg h2, ih]

theorem historyGet_historyInsert_self (k v : String) (m : List (String × List String)) :
    historyGet k (historyInsert k v m) = some (setInsert v ((historyGet k m).getD [])) := by
  induction m with
  | nil => simp [historyInsert, historyGet, setInsert]
  | cons kv rest ih =>
    obtain ⟨q, s⟩ := kv
    by_cases h : k = q
    · simp [historyInsert, historyGet, h]
    · simp [historyInsert, historyGet, h, ih]

theorem historyGet_historyInsert_other (q k v : String) (m : List (String × List String))
    (h : q ≠ k) : historyGet q (historyInsert k v m) = historyGet q m := by
  induction m with
  | nil => simp [historyInsert, historyGet, h]
  | cons kv rest ih =>
    obtain ⟨q2, s⟩ := kv
    by_cases hk : k = q2
    · subst hk
      simp [historyInsert, historyGet, h, ih]
    · simp [historyInsert, historyGet, hk, ih]

theorem historyInsert_idem (k v : String) (m : List (String × List String)) :
    historyInsert k v (historyInsert k v m) = historyInsert k v m := by
  induction m with
  | nil =>
    have hs := setInsert_idem v []
    rw [setInsert] at hs
    simp [historyInsert, hs]
  | cons kv rest ih =>
    obtain ⟨q, s⟩ := kv
    by_cases h : k = q
    · simp [historyInsert, h, setInsert_idem]
    · simp [historyInsert, h, ih]

/-- C9 counterexample: with a playlist URI that does not render to a URI
string, `record_download` returns success yet `has_downloaded` on the same
pair afterwards is false — so "after a successful record_download of a pair,
has_downloaded on that pair returns true" fails as stated. -/
theorem record_success_without_membership_counterexample :
    (record_download true ⟨⟨[]⟩, ⟨[]⟩⟩ ⟨none⟩ ⟨some "spotify:track:t"⟩).2 = Except.ok ()
    ∧ has_downloaded (record_download true ⟨⟨[]⟩, ⟨[]⟩⟩ ⟨none⟩ ⟨some "spotify:track:t"⟩).1
        ⟨none⟩ ⟨some "spotify:track:t"⟩ = false :=
  ⟨rfl, rfl⟩

/-- C9 amended: an entry, once present, survives every `record_download`;
recording the same pair twice leaves the history state equal to recording it
once; and after a successful `record_download` of a pair whose playlist and
track URIs both render, `has_downloaded` on that pair returns true (a pair
with an unrenderable URI is not inserted even though `record_download`
reports success). -/
theorem playlist_history_invariants (persistOk : Bool) (h : PlaylistHistory)
    (p t q u : SpotifyUri) :
    (has_downloaded h p t = true →
      has_downloaded (record_download persistOk h q u).1 p t = true)
    ∧ (record_download persistOk (record_download persistOk h q u).1 q u).1
        = (record_download persistOk h q u).1
    ∧ ((to_uri_string p).isSome → (to_uri_string t).isSome →
        (record_download persistOk h p t).2 = Except.ok () →
        has_downloaded (record_download persistOk h p t).1 p t = true) := by
  refine ⟨?_, ?_, ?_⟩
  · intro hmem
    cases hp : to_uri_string p with
    | none => simp [has_downloaded, hp] at hmem
    | some pid =>
      cases ht : to_uri_string t with
      | none => simp [has_downloaded, hp, ht] at hmem
      | some tid =>
        simp only [has_downloaded, hp, ht] at hmem
        cases hg : historyGet pid h.data.playlists with
        | none => simp [hg] at hmem
        | some s =>
          simp only [hg] at hmem
          cases hq : to_uri_string q with
          | none => simp [record_download, hq, has_downloaded, hp, ht, hg, hmem]
          | some qid =>
            cases hu : to_uri_string u with
            | none => simp [record_download, hq, hu, has_downloaded, hp, ht, hg, hmem]
            | some uid =>
              have hdata : (record_download persistOk h q u).1.data.playlists
                  = historyInsert qid uid h.data.playlists := by
                cases persistOk <;> simp [record_download, hq, hu]
              simp only [has_downloaded, hp, ht, hdata]
              by_cases hpq : pid = qid
              · subst hpq
                rw [historyGet_historyInsert_self, hg]
                simp [setContains_setInsert, hmem]
              · rw [historyGet_historyInsert_other pid qid uid _ hpq, hg]
                simpa using hmem
  · cases hq : to_uri_string q with
    | none => simp [record_download, hq]
    | some qid =>
      cases hu : to_uri_string u with
      | none => simp [record_download, hq, hu]
      | some uid =>
        cases persistOk <;> simp [record_download, hq, hu, historyInsert_idem]
  · intro hp ht _
    cases hp2 : to_uri_string p with
    | none => rw [hp2] at hp; exact absurd hp (by simp)
    | some pid =>
      cases ht2 : to_uri_string t with
      | none => rw [ht2] at ht; exact absurd ht (by simp)
      | some tid =>
        have hdata : (record_download persistOk h p t).1.data.playlists
            = historyInsert pid tid h.data.playlists := by
          cases persistOk <;> simp [record_download, hp2, ht2]
        simp only [has_downloaded, hp2, ht2, hdata]
        rw [historyGet_historyInsert_self]
        simp [setContains_setInsert]

theorem playlist_history_invariants_witness :
    (has_downloaded
        (record_download true ⟨⟨[("P", ["T"])]⟩, ⟨[("P", ["T"])]⟩⟩ ⟨some "P"⟩ ⟨some "U"⟩).1
        ⟨some "P"⟩ ⟨some "T"⟩ = true)
    ∧ (record_download true
          (record_download true ⟨⟨[("P", ["T"])]⟩, ⟨[("P", ["T"])]⟩⟩ ⟨some "P"⟩ ⟨some "U"⟩).1
          ⟨some "P"⟩ ⟨some "U"⟩).1
        = (record_download true ⟨⟨[("P", ["T"])]⟩, ⟨[("P", ["T"])]⟩⟩ ⟨some "P"⟩ ⟨some "U"⟩).1
    ∧ (has_downloaded
        (record_download true ⟨⟨[("P", ["T"])]⟩, ⟨[("P", ["T"])]⟩⟩ ⟨some "P"⟩ ⟨some "T"⟩).1
        ⟨some "P"⟩ ⟨some "T"⟩ = true) :=
  ⟨(playlist_history_invariants true ⟨⟨[("P", ["T"])]⟩, ⟨[("P", ["T"])]⟩⟩
      ⟨some "P"⟩ ⟨some "T"⟩ ⟨some "P"⟩ ⟨some "U"⟩).1 rfl,
   (playlist_history_invariants true ⟨⟨[("P", ["T"])]⟩, ⟨[("P", ["T"])]⟩⟩
      ⟨some "P"⟩ ⟨some "T"⟩ ⟨some "P"⟩ ⟨some "U"⟩).2.1,
   (playlist_history_invariants true ⟨⟨[("P", ["T"])]⟩, ⟨[("P", ["T"])]⟩⟩
      ⟨some "P"⟩ ⟨some "T"⟩ ⟨some "P"⟩ ⟨some "U"⟩).2.2 rfl rfl rfl⟩

/-- C10: when either URI cannot be rendered to a URI string,
`record_download` returns success leaving both the in-memory history and the
persisted file unchanged, and `has_downloaded` is false for that pair in
every state. -/
theorem unrenderable_uri_noop (persistOk : Bool) (h : PlaylistHistory) (p t : SpotifyUri)
    (hpt : to_uri_string p = none ∨ to_uri_string t = none) :
    record_download persistOk h p t = (h, Except.ok ())
    ∧ has_downloaded h p t = false := by
  cases hp2 : to_uri_string p with
  | none =>
    cases ht2 : to_uri_string t with
    | none => constructor <;> simp [record_download, has_downloaded, hp2, ht2]
    | some tid => constructor <;> simp [record_download, has_downloaded, hp2, ht2]
  | some pid =>
    cases ht2 : to_uri_string t with
    | none => constructor <;> simp [record_download, has_downloaded, hp2, ht2]
    | some tid =>
      rcases hpt with hp | ht
      · rw [hp2] at hp; exact absurd hp (by simp)
      · rw [ht2] at ht; exact absurd ht (by simp)

theorem unrenderable_uri_noop_witness :
    record_download false ⟨⟨[]⟩, ⟨[]⟩⟩ ⟨some "spotify:playlist:p"⟩ ⟨none⟩
      = (⟨⟨[]⟩, ⟨[]⟩⟩, Except.ok ())
    ∧ has_downloaded ⟨⟨[]⟩, ⟨[]⟩⟩ ⟨some "spotify:playlist:p"⟩ ⟨none⟩ = false :=
  unrenderable_uri_noop false ⟨⟨[]⟩, ⟨[]⟩⟩ ⟨some "spotify:playlist:p"⟩ ⟨none⟩ (Or.inr rfl)

/-- C8 counterexample: a cache file whose contents are a single space fails
to deserialize (the deserializer returns `none` on it), yet the run leaves
the file in place (the erased flag is false) because the source only attempts
deserialization of non-blank contents — contradicting "the file is
discarded". No error is returned and the tracks are unchanged. -/
theorem corrupted_cache_whitespace_counterexample :
    use_last_run_cache_if_applicable (fun _ => none) (ReadResult.ok " ") ⟨[], false⟩
      = Except.ok ([], false)
    ∧ (fun _ => (none : Option LastRunCache)) " " = none :=
  ⟨rfl, rfl⟩

/-- C8 amended: a last-run cache file whose non-blank contents fail to
deserialize is discarded, no error is returned from cache loading, and the
run proceeds with exactly the explicitly supplied tracks; a file containing
only whitespace is ignored without being discarded, likewise with no error
and no change to the tracks. -/
theorem corrupted_cache_discarded (deserialize : String → Option LastRunCache)
    (data : String) (opt : CliOpt)
    (hopt : opt.tracks = []) (hreset : opt.reset = false)
    (hparse : deserialize data = none) :
    (trimIsEmpty data = false →
      use_last_run_cache_if_applicable deserialize (ReadResult.ok data) opt
        = Except.ok (opt.tracks, true))
    ∧ (trimIsEmpty data = true →
      use_last_run_cache_if_applicable deserialize (ReadResult.ok data) opt
        = Except.ok (opt.tracks, false)) := by
  constructor <;> intro hb <;>
    simp [use_last_run_cache_if_applicable, hopt, hreset, hb, hparse]

theorem corrupted_cache_discarded_witness :
    use_last_run_cache_if_applicable (fun _ => none) (ReadResult.ok "garbage") ⟨[], false⟩
      = Except.ok ([], true) := by
  have h := (corrupted_cache_discarded (fun _ => none) "garbage" ⟨[], false⟩
    rfl rfl rfl).1 rfl
  simpa using h

end SpotifyDl
